import Mathlib

/-!
Shallow embedding of `ValidationEngine` from
`src/assets/js/validation-engine.js` (civicstudio/eligibility-rules).

Modelling conventions:
* JavaScript values reaching the engine are strings, numbers, booleans or
  `null` (`Value`); an absent value (`undefined`) is `Option.none`.
* JavaScript numbers are idealised as rationals (`Rat`); `NaN` arises only
  through `Number(...)` coercion and is modelled as `Option.none` in
  `toNumber`.  String-to-number coercion implements the decimal grammar of
  JS `Number(string)` (optional sign, digits, fraction, exponent, surrounding
  whitespace, empty string is `0`); hex/binary/octal literals and `Infinity`
  are outside the model and coerce to `none`.
* The host regular-expression facility (`new RegExp(p).test(s)`) is a
  parameter `rx : String → String → Option Bool`; `rx p s = none` models
  `new RegExp(p)` throwing a `SyntaxError` (invalid pattern).  A thrown
  exception propagates through the engine as `Except.error`.
* JS objects are association lists; `attributes[key]` is first-match lookup.
-/

inductive Value where
  | str (s : String)
  | num (q : Rat)
  | bool (b : Bool)
  | null
deriving DecidableEq, Repr

abbrev Attributes := List (String × Value)

/-- `attributes[key]`: `none` models `undefined` (key not present). -/
def lookupAttr (attrs : Attributes) (k : String) : Option Value :=
  (attrs.find? (fun p => p.1 == k)).map (·.2)

/-- Whitespace accepted around a JS numeric string. -/
def isJsWS (c : Char) : Bool :=
  c == ' ' || c == '\t' || c == '\n' || c == '\r'

def natOfDigits (ds : List Char) : Nat :=
  ds.foldl (fun a c => a * 10 + (c.toNat - 48)) 0

/-- Exponent suffix of a JS decimal literal: empty means exponent `0`;
`e`/`E`, optional sign, at least one digit, nothing trailing. -/
def parseExpPart (cs : List Char) : Option Int :=
  match cs with
  | [] => some 0
  | c :: rest =>
    if c == 'e' || c == 'E' then
      let (sign, rest') : Int × List Char :=
        match rest with
        | '+' :: r => (1, r)
        | '-' :: r => (-1, r)
        | r => (1, r)
      let (ds, rest'') := rest'.span Char.isDigit
      if ds.isEmpty || !rest''.isEmpty then none
      else some (sign * (natOfDigits ds : Int))
    else none

def applyExp (m : Rat) (e : Int) : Rat :=
  if 0 ≤ e then m * (10 : Rat) ^ e.toNat else m / (10 : Rat) ^ (-e).toNat

/-- Unsigned JS decimal literal: `digits [. digits] [exp]` or `. digits [exp]`. -/
def parseUnsignedDecimal (cs : List Char) : Option Rat :=
  let (ip, r1) := cs.span Char.isDigit
  match r1 with
  | '.' :: r2 =>
    let (fp, r3) := r2.span Char.isDigit
    if ip.isEmpty && fp.isEmpty then none
    else
      (parseExpPart r3).map fun e =>
        applyExp ((natOfDigits ip : Rat) + (natOfDigits fp : Rat) / (10 : Rat) ^ fp.length) e
  | _ =>
    if ip.isEmpty then none
    else (parseExpPart r1).map fun e => applyExp (natOfDigits ip : Rat) e

/-- JS `Number(string)` over the decimal grammar; `none` is `NaN`. -/
def stringToNumber (s : String) : Option Rat :=
  let cs := (s.toList.dropWhile isJsWS).reverse.dropWhile isJsWS |>.reverse
  match cs with
  | [] => some 0
  | '+' :: rest => parseUnsignedDecimal rest
  | '-' :: rest => (parseUnsignedDecimal rest).map Neg.neg
  | _ => parseUnsignedDecimal cs

/-- JS `Number(x)` on an engine value (`none` argument is `undefined`);
result `none` is `NaN`. -/
def toNumber (v : Option Value) : Option Rat :=
  match v with
  | none => none
  | some (Value.num q) => some q
  | some (Value.bool b) => some (if b then 1 else 0)
  | some Value.null => some 0
  | some (Value.str s) => stringToNumber s

/-- `NaN`-aware `<` : any comparison involving `NaN` is false. -/
def numLt (a b : Option Rat) : Bool :=
  match a, b with
  | some x, some y => x < y
  | _, _ => false

def numLe (a b : Option Rat) : Bool :=
  match a, b with
  | some x, some y => x ≤ y
  | _, _ => false

def numGt (a b : Option Rat) : Bool := numLt b a

def numGe (a b : Option Rat) : Bool := numLe b a

/-- Decimal rendering of an idealised JS number (integers render as in JS;
non-integral rationals render as `num/den`, a notational stand-in never
exercised by integer-valued rules). -/
def ratToString (q : Rat) : String :=
  if q.den = 1 then toString q.num else toString q.num ++ "/" ++ toString q.den

/-- JS `String(v)` / template-literal interpolation of a defined value. -/
def jsToString : Value → String
  | Value.str s => s
  | Value.num q => ratToString q
  | Value.bool b => if b then "true" else "false"
  | Value.null => "null"

/-- Interpolation of a possibly-`undefined` value (`${value}`). -/
def jsToStringOpt : Option Value → String
  | none => "undefined"
  | some v => jsToString v

/-- JS truthiness test used by `label || key`, `unit ? ... : ''` on an
optional string: absent and empty strings are falsy. -/
def strTruthy : Option String → Bool
  | none => false
  | some s => !(s == "")

/-- `a || b` for an optional string against a string default. -/
def strOrElse (a : Option String) (b : String) : String :=
  match a with
  | some s => if s == "" then b else s
  | none => b

/-- Rule tree node (`rules`/`conditions`/`any_of` entries).  `conditions` and
`any_of` absent in the source data behave identically to the empty list in
every engine path, so both are plain lists here.  `operator` and
`requirement` stay raw strings: the engine itself dispatches on them and
tolerates unrecognised contents. -/
inductive Rule where
  | mk (id : Option String) (key : String) (label : Option String)
      (description : Option String) (operator : String)
      (value : Option Value) (values : Option (List Value))
      (min : Option Value) (max : Option Value) (unit : Option String)
      (requirement : Option String)
      (conditions : List Rule) (any_of : List Rule)

def Rule.id : Rule → Option String | .mk i _ _ _ _ _ _ _ _ _ _ _ _ => i
def Rule.key : Rule → String | .mk _ k _ _ _ _ _ _ _ _ _ _ _ => k
def Rule.label : Rule → Option String | .mk _ _ l _ _ _ _ _ _ _ _ _ _ => l
def Rule.description : Rule → Option String | .mk _ _ _ d _ _ _ _ _ _ _ _ _ => d
def Rule.operator : Rule → String | .mk _ _ _ _ o _ _ _ _ _ _ _ _ => o
def Rule.value : Rule → Option Value | .mk _ _ _ _ _ v _ _ _ _ _ _ _ => v
def Rule.values : Rule → Option (List Value) | .mk _ _ _ _ _ _ vs _ _ _ _ _ _ => vs
def Rule.min : Rule → Option Value | .mk _ _ _ _ _ _ _ m _ _ _ _ _ => m
def Rule.max : Rule → Option Value | .mk _ _ _ _ _ _ _ _ m _ _ _ _ => m
def Rule.unit : Rule → Option String | .mk _ _ _ _ _ _ _ _ _ u _ _ _ => u
def Rule.requirement : Rule → Option String | .mk _ _ _ _ _ _ _ _ _ _ r _ _ => r
def Rule.conditions : Rule → List Rule | .mk _ _ _ _ _ _ _ _ _ _ _ c _ => c
def Rule.any_of : Rule → List Rule | .mk _ _ _ _ _ _ _ _ _ _ _ _ a => a

/-- Pattern string handed to `new RegExp(rule.value)`: an absent pattern
compiles to the empty pattern, anything else to its string form. -/
def regexPattern (v : Option Value) : String :=
  match v with
  | none => ""
  | some w => jsToString w

/-- `evaluateCondition(rule, value)` (source lines 153-198).  The `attributes`
parameter of the source is unused there and omitted.  `rx` is the host
regular-expression facility; `Except.error ()` is the uncaught `SyntaxError`
of `new RegExp` on an invalid pattern. -/
def evaluateCondition (rx : String → String → Option Bool)
    (rule : Rule) (value : Option Value) : Except Unit Bool :=
  match rule.operator with
  | "equals" => .ok (value == rule.value)
  | "not_equals" => .ok (!(value == rule.value))
  | "less_than" => .ok (numLt (toNumber value) (toNumber rule.value))
  | "less_than_or_equal" => .ok (numLe (toNumber value) (toNumber rule.value))
  | "greater_than" => .ok (numGt (toNumber value) (toNumber rule.value))
  | "greater_than_or_equal" => .ok (numGe (toNumber value) (toNumber rule.value))
  | "in" =>
    .ok (match rule.values, value with
      | some vs, some v => vs.any (fun w => w == v)
      | some _, none => false
      | none, _ => false)
  | "not_in" =>
    .ok (match rule.values, value with
      | some vs, some v => !(vs.any (fun w => w == v))
      | some _, none => true
      | none, _ => true)
  | "between" =>
    .ok (numGe (toNumber value) (toNumber rule.min) &&
         numLe (toNumber value) (toNumber rule.max))
  | "exists" =>
    .ok (match value with
      | some Value.null => false
      | some _ => true
      | none => false)
  | "not_exists" =>
    .ok (match value with
      | some Value.null => true
      | some _ => false
      | none => true)
  | "matches" =>
    match rx (regexPattern rule.value) (jsToStringOpt value) with
    | some b => .ok b
    | none => .error ()
  | _ => .ok false

/-- `describeExpectation(rule)` (source lines 203-233).  The JS function can
return the raw `rule.value` (default branch), so the result is a `Value`;
string results are wrapped in `Value.str`. -/
def describeExpectation (rule : Rule) : Option Value :=
  let unitStr := if strTruthy rule.unit then " " ++ rule.unit.getD "" else ""
  match rule.operator with
  | "equals" => some (.str (jsToStringOpt rule.value ++ unitStr))
  | "not_equals" => some (.str ("not " ++ jsToStringOpt rule.value ++ unitStr))
  | "less_than" => some (.str ("< " ++ jsToStringOpt rule.value ++ unitStr))
  | "less_than_or_equal" => some (.str ("<= " ++ jsToStringOpt rule.value ++ unitStr))
  | "greater_than" => some (.str ("> " ++ jsToStringOpt rule.value ++ unitStr))
  | "greater_than_or_equal" => some (.str (">= " ++ jsToStringOpt rule.value ++ unitStr))
  | "in" =>
    some (.str ("one of [" ++
      (match rule.values with
       | some vs => String.intercalate ", " (vs.map jsToString)
       | none => "undefined") ++ "]"))
  | "not_in" =>
    some (.str ("not one of [" ++
      (match rule.values with
       | some vs => String.intercalate ", " (vs.map jsToString)
       | none => "undefined") ++ "]"))
  | "between" =>
    some (.str ("between " ++ jsToStringOpt rule.min ++ " and " ++
      jsToStringOpt rule.max ++ unitStr))
  | "exists" => some (.str "exists")
  | "not_exists" => some (.str "does not exist")
  | _ => rule.value

/-- One record of the `passed` / `failed` / `skipped` result lists.  The JS
objects carry different field subsets per list; absent fields are `none`. -/
structure Entry where
  id : Option String := none
  key : String := ""
  label : Option String := none
  value : Option Value := none
  reason : Option String := none
  message : Option String := none
  expected : Option Value := none
  severity : Option String := none
  satisfied_by : Option String := none
deriving DecidableEq, Repr

/-- One record of `result.errors` (source lines 129-131 / 142-144). -/
structure ErrorEntry where
  field : String
  message : String
deriving DecidableEq, Repr

structure Ruleset where
  service_id : Option String := none
  name : Option String := none
  rules : List Rule := []

/-- Changeset-style result of `validate` (source lines 29-39 and 46-48).
`timestamp` and `duration_ms` are wall-clock inputs of the host. -/
structure ValidationResult where
  valid : Bool
  service_id : Option String
  timestamp : String
  changes : Attributes
  errors : List ErrorEntry
  passed : List Entry
  failed : List Entry
  skipped : List Entry
  data : Ruleset
  duration_ms : Nat

/-- `rule.any_of.some(alt => evaluateCondition(alt, attributes[alt.key], attributes))`
(source lines 101-104): left-to-right, short-circuiting, and a thrown
`SyntaxError` inside an alternative propagates. -/
def anyAltPasses (rx : String → String → Option Bool)
    (alts : List Rule) (attrs : Attributes) : Except Unit Bool :=
  match alts with
  | [] => .ok false
  | alt :: rest => do
    let b ← evaluateCondition rx alt (lookupAttr attrs alt.key)
    if b then pure true else anyAltPasses rx rest attrs

mutual

/-- `evaluateRule(rule, attributes, result)` (source lines 62-148), with the
in-place mutation of `result` rendered as state threading. -/
def evaluateRule (rx : String → String → Option Bool) :
    Rule → Attributes → ValidationResult → Except Unit ValidationResult
  | rule@(.mk id key label desc op _val _vals _mn _mx _un req conds anyOf),
    attrs, result =>
    let value := lookupAttr attrs key
    if value == none && op != "not_exists" then
      if req != some "optional" then
        .ok { result with skipped := result.skipped ++
          [{ id := id, key := key, label := label,
             reason := some "missing_attribute",
             message := some ("Missing required attribute: " ++ key) }] }
      else
        .ok result
    else do
      let passed ← evaluateCondition rx rule value
      if passed then
        let result := { result with passed := result.passed ++
          [{ id := id, key := key, label := label, value := value }] }
        evaluateRules rx conds attrs result
      else do
        let anyPassed ←
          if !anyOf.isEmpty then anyAltPasses rx anyOf attrs else pure false
        if anyPassed then
          .ok { result with passed := result.passed ++
            [{ id := id, key := key, label := label, value := value,
               satisfied_by := some "alternative" }] }
        else if req == some "disqualifying" then
          .ok { result with
            failed := result.failed ++
              [{ id := id, key := key, label := label, value := value,
                 expected := describeExpectation rule,
                 message := some ("Disqualifying condition: " ++ strOrElse label key),
                 severity := some "disqualifying" }],
            errors := result.errors ++
              [{ field := key,
                 message := strOrElse desc
                   ("Does not meet " ++ strOrElse label key ++ " requirement") }] }
        else if req != some "optional" then
          .ok { result with
            failed := result.failed ++
              [{ id := id, key := key, label := label, value := value,
                 expected := describeExpectation rule,
                 message := some ("Requirement not met: " ++ strOrElse label key) }],
            errors := result.errors ++
              [{ field := key,
                 message := strOrElse desc
                   ("Does not meet " ++ strOrElse label key ++ " requirement") }] }
        else
          .ok result

/-- The `for` loops over `ruleset.rules` (line 42) and `rule.conditions`
(lines 93-96). -/
def evaluateRules (rx : String → String → Option Bool) :
    List Rule → Attributes → ValidationResult → Except Unit ValidationResult
  | [], _, result => .ok result
  | rule :: rest, attrs, result => do
    let result' ← evaluateRule rx rule attrs result
    evaluateRules rx rest attrs result'

end

/-- The fresh result object of `validate` (source lines 29-39). -/
def initResult (timestamp : String) (ruleset : Ruleset) (attrs : Attributes) :
    ValidationResult :=
  { valid := true, service_id := ruleset.service_id, timestamp := timestamp,
    changes := attrs, errors := [], passed := [], failed := [], skipped := [],
    data := ruleset, duration_ms := 0 }

/-- `validate(ruleset, attributes)` (source lines 27-57).  `timestamp` and
`durationMs` stand for the host clock readings; an uncaught exception from
the tree walk (invalid regex) propagates out of `validate`. -/
def validate (rx : String → String → Option Bool)
    (timestamp : String) (durationMs : Nat)
    (ruleset : Ruleset) (attrs : Attributes) : Except Unit ValidationResult := do
  let result ← evaluateRules rx ruleset.rules attrs (initResult timestamp ruleset attrs)
  .ok { result with valid := result.failed.length == 0, duration_ms := durationMs }

/-- Audit event produced by `createEvent` (source lines 238-255). -/
structure AuditEvent where
  type : String
  timestamp : String
  service_id : Option String
  valid : Bool
  passed_count : Nat
  failed_count : Nat
  skipped_count : Nat
  duration_ms : Nat
  errors : List ErrorEntry
  attributes_provided : List String
deriving DecidableEq, Repr

/-- `createEvent(result)` (source lines 238-255): a projection of the result
that keeps attribute keys but never attribute values. -/
def createEvent (result : ValidationResult) : AuditEvent :=
  { type := "validation",
    timestamp := result.timestamp,
    service_id := result.service_id,
    valid := result.valid,
    passed_count := result.passed.length,
    failed_count := result.failed.length,
    skipped_count := result.skipped.length,
    duration_ms := result.duration_ms,
    errors := result.errors.map (fun e => { field := e.field, message := e.message }),
    attributes_provided := result.changes.map (·.1) }

/-! Concrete rulesets and host-regex instances used to instantiate the
theorems below. -/

/-- A host regex facility on which every pattern compiles (and matches
nothing); regular rules never reach it. -/
def rxFalse : String → String → Option Bool := fun _ _ => some false

/-- A host regex facility on which the pattern `[` fails to compile
(as JS `new RegExp("[")` does) and every other pattern compiles. -/
def rxBracket : String → String → Option Bool :=
  fun p _ => if p = "[" then none else some false

def ageRule : Rule :=
  .mk (some "r1") "age" none none "less_than_or_equal" (some (.num 65))
    none none none none (some "required") [] []

def ageRS : Ruleset := { service_id := some "svc", rules := [ageRule] }

def between1849 : Rule :=
  .mk (some "r2") "age" none none "between" none none
    (some (.num 18)) (some (.num 49)) none (some "required") [] []

def eqTrueReq : Rule :=
  .mk (some "r3") "x" none none "equals" (some (.bool true))
    none none none none none [] []

def notEqOptional : Rule :=
  .mk (some "r4") "x" none none "not_equals" (some (.bool true))
    none none none none (some "optional") [] []

def altDisability : Rule :=
  .mk (some "a1") "has_disability" none none "equals" (some (.bool true))
    none none none none none [] []

def altDependent : Rule :=
  .mk (some "a2") "has_dependent_child" none none "equals" (some (.bool true))
    none none none none none [] []

def parentAltRule : Rule :=
  .mk (some "p1") "x" none none "equals" (some (.bool true))
    none none none none none [ageRule] [altDisability, altDependent]

def matchesBad : Rule :=
  .mk (some "m1") "name" none none "matches" (some (.str "["))
    none none none none none [] []

def regexRS : Ruleset := { service_id := some "svc", rules := [matchesBad, ageRule] }

/-- The twelve operators recognised by `evaluateCondition`. -/
def knownOperators : List String :=
  ["equals", "not_equals", "less_than", "less_than_or_equal",
   "greater_than", "greater_than_or_equal", "in", "not_in", "between",
   "exists", "not_exists", "matches"]

def frobRule : Rule :=
  .mk (some "u1") "x" none none "frobnicate" none
    none none none none none [] []

/-- `res'` extends `res`: tree-walking only appends to the outcome lists. -/
def ResultExtends (res res' : ValidationResult) : Prop :=
  ∃ dp df ds de,
    res'.passed = res.passed ++ dp ∧ res'.failed = res.failed ++ df ∧
    res'.skipped = res.skipped ++ ds ∧ res'.errors = res.errors ++ de

/-- A processed node leaves no trace in the result: its requirement is
`optional` and either its attribute was missing (operator not `not_exists`)
or its condition failed with no satisfying alternative. -/
def vanishes (rx : String → String → Option Bool) (r : Rule) (attrs : Attributes) : Prop :=
  r.requirement = some "optional" ∧
    ((lookupAttr attrs r.key = none ∧ r.operator ≠ "not_exists") ∨
     (evaluateCondition rx r (lookupAttr attrs r.key) = .ok false ∧
      ¬(r.any_of ≠ [] ∧ anyAltPasses rx r.any_of attrs = .ok true)))

theorem numLt_none_left (b : Option Rat) : numLt none b = false := by cases b <;> rfl

theorem numLt_none_right (a : Option Rat) : numLt a none = false := by cases a <;> rfl

theorem numLe_none_left (b : Option Rat) : numLe none b = false := by cases b <;> rfl

theorem numLe_none_right (a : Option Rat) : numLe a none = false := by cases a <;> rfl

theorem resultExtends_refl (res : ValidationResult) : ResultExtends res res :=
  ⟨[], [], [], [], by simp, by simp, by simp, by simp⟩

theorem resultExtends_trans {res₁ res₂ res₃ : ValidationResult}
    (h₁ : ResultExtends res₁ res₂) (h₂ : ResultExtends res₂ res₃) :
    ResultExtends res₁ res₃ := by
  obtain ⟨dp, df, ds, de, e1, e2, e3, e4⟩ := h₁
  obtain ⟨dp', df', ds', de', f1, f2, f3, f4⟩ := h₂
  exact ⟨dp ++ dp', df ++ df', ds ++ ds', de ++ de',
    by simp [f1, e1], by simp [f2, e2], by simp [f3, e3], by simp [f4, e4]⟩

/-- Size-bounded induction: a successful tree walk only appends, never
removes or edits, entries of the accumulating result. -/
theorem evalExtendsAux (rx : String → String → Option Bool) :
    ∀ n : Nat,
      (∀ rule : Rule, sizeOf rule ≤ n → ∀ attrs res res',
        evaluateRule rx rule attrs res = .ok res' → ResultExtends res res') ∧
      (∀ rs : List Rule, sizeOf rs ≤ n → ∀ attrs res res',
        evaluateRules rx rs attrs res = .ok res' → ResultExtends res res') := by
  intro n
  induction n with
  | zero =>
    constructor
    · intro rule hsz
      exact absurd hsz (by cases rule; simp)
    · intro rs hsz
      exact absurd hsz (by cases rs <;> simp)
  | succ n ih =>
    constructor
    · intro rule hsz attrs res res' h
      obtain ⟨i, k, l, d, o, val, vals, mn, mx, u, req, c, a⟩ := rule
      have hc : sizeOf c ≤ n := by simp at hsz; omega
      rw [evaluateRule.eq_def] at h
      dsimp only at h
      split at h
      · split at h
        · obtain rfl := Except.ok.inj h
          exact ⟨[], [], _, [], by simp, by simp, rfl, by simp⟩
        · obtain rfl := Except.ok.inj h
          exact resultExtends_refl res
      · cases hcon : evaluateCondition rx (Rule.mk i k l d o val vals mn mx u req c a)
            (lookupAttr attrs k) with
        | error e => rw [hcon] at h; exact absurd h (by simp [Bind.bind, Except.bind])
        | ok b =>
          rw [hcon] at h
          simp only [Bind.bind, Except.bind] at h
          cases b with
          | true =>
            have hrec := (ih.2) c hc attrs _ _ h
            refine resultExtends_trans ?_ hrec
            exact ⟨_, [], [], [], rfl, by simp, by simp, by simp⟩
          | false =>
            rw [if_neg Bool.false_ne_true] at h
            split at h
            · cases ha : anyAltPasses rx a attrs with
              | error e =>
                rw [ha] at h; exact absurd h (by simp [Bind.bind, Except.bind])
              | ok ab =>
                rw [ha] at h
                dsimp only at h
                cases ab with
                | true =>
                  rw [if_pos rfl] at h
                  obtain rfl := Except.ok.inj h
                  exact ⟨_, [], [], [], rfl, by simp, by simp, by simp⟩
                | false =>
                  rw [if_neg Bool.false_ne_true] at h
                  split at h
                  · obtain rfl := Except.ok.inj h
                    exact ⟨[], _, [], _, by simp, rfl, by simp, rfl⟩
                  · split at h
                    · obtain rfl := Except.ok.inj h
                      exact ⟨[], _, [], _, by simp, rfl, by simp, rfl⟩
                    · obtain rfl := Except.ok.inj h
                      exact resultExtends_refl res
            · simp only [pure, Except.pure, Bind.bind, Except.bind] at h
              rw [if_neg Bool.false_ne_true] at h
              split at h
              · obtain rfl := Except.ok.inj h
                exact ⟨[], _, [], _, by simp, rfl, by simp, rfl⟩
              · split at h
                · obtain rfl := Except.ok.inj h
                  exact ⟨[], _, [], _, by simp, rfl, by simp, rfl⟩
                · obtain rfl := Except.ok.inj h
                  exact resultExtends_refl res
    · intro rs hsz attrs res res' h
      cases rs with
      | nil =>
        simp only [evaluateRules] at h
        obtain rfl := Except.ok.inj h
        exact resultExtends_refl res
      | cons rule rest =>
        have h1 : sizeOf rule ≤ n := by simp at hsz; omega
        have h2 : sizeOf rest ≤ n := by simp at hsz; omega
        simp only [evaluateRules] at h
        cases hr : evaluateRule rx rule attrs res with
        | error e => rw [hr] at h; exact absurd h (by simp [Bind.bind, Except.bind])
        | ok mid =>
          rw [hr] at h
          simp only [Bind.bind, Except.bind] at h
          exact resultExtends_trans ((ih.1) rule h1 attrs res mid hr)
            ((ih.2) rest h2 attrs mid res' h)

/-- Processing one rule in front of a list is processing the rule and then
the list (the `for` loop of `validate`, line 42, stepwise). -/
theorem evaluateRules_cons (rx : String → String → Option Bool)
    (rule : Rule) (rest : List Rule) (attrs : Attributes)
    (res res' : ValidationResult)
    (h : evaluateRule rx rule attrs res = .ok res') :
    evaluateRules rx (rule :: rest) attrs res = evaluateRules rx rest attrs res' := by
  simp [evaluateRules, h, Bind.bind, Except.bind]

/-- A thrown condition exception propagates out of `evaluateRule`. -/
theorem evalRule_error_of_cond (rx : String → String → Option Bool)
    (rule : Rule) (attrs : Attributes) (res : ValidationResult)
    (hmiss : (lookupAttr attrs rule.key == none && rule.operator != "not_exists") = false)
    (hcond : evaluateCondition rx rule (lookupAttr attrs rule.key) = .error ()) :
    evaluateRule rx rule attrs res = .error () := by
  obtain ⟨i, k, l, d, o, val, vals, mn, mx, u, req, c, a⟩ := rule
  simp only [Rule.key, Rule.operator] at hmiss hcond
  rw [evaluateRule.eq_def]
  dsimp only
  simp only [hmiss, Bool.false_eq_true, if_false]
  rw [hcond]
  rfl

/-- A thrown exception in the head rule aborts the whole loop. -/
theorem evalRules_error_head (rx : String → String → Option Bool)
    (rule : Rule) (rest : List Rule) (attrs : Attributes) (res : ValidationResult)
    (h : evaluateRule rx rule attrs res = .error ()) :
    evaluateRules rx (rule :: rest) attrs res = .error () := by
  simp [evaluateRules, h, Bind.bind, Except.bind]

/-- A thrown exception in the tree walk aborts `validate`. -/
theorem validate_error (rx : String → String → Option Bool)
    (ts : String) (dur : Nat) (ruleset : Ruleset) (attrs : Attributes)
    (h : evaluateRules rx ruleset.rules attrs (initResult ts ruleset attrs) = .error ()) :
    validate rx ts dur ruleset attrs = .error () := by
  simp [validate, h, Bind.bind, Except.bind]

/-- C1: for every ruleset and attribute mapping on which `validate` returns
a result, the result's `valid` flag equals "the `failed` list is empty";
`skipped` entries (missing required attributes) play no role in validity. -/
theorem C1_valid_iff_no_failures (rx : String → String → Option Bool)
    (ts : String) (dur : Nat) (ruleset : Ruleset) (attrs : Attributes)
    (r : ValidationResult)
    (h : validate rx ts dur ruleset attrs = .ok r) :
    r.valid = (r.failed.length == 0) := by
  unfold validate at h
  cases hres : evaluateRules rx ruleset.rules attrs (initResult ts ruleset attrs) with
  | error e => rw [hres] at h; exact absurd h (by simp [Bind.bind, Except.bind])
  | ok res =>
    rw [hres] at h
    simp only [Bind.bind, Except.bind, Except.ok.injEq] at h
    subst h
    rfl

/-- The result of `validate rxFalse "t0" 3 ageRS \x7b age: 65 \x7d`. -/
def C1res : ValidationResult :=
  { initResult "t0" ageRS [("age", Value.num 65)] with
    passed := [⟨some "r1", "age", none, some (Value.num 65), none, none, none, none, none⟩],
    duration_ms := 3 }

/-- C1, instantiated: a concrete run returning a result with `valid` equal
to emptiness of `failed`. -/
theorem C1_valid_iff_no_failures_witness :
    validate rxFalse "t0" 3 ageRS [("age", Value.num 65)] = .ok C1res ∧
    C1res.valid = (C1res.failed.length == 0) :=
  ⟨rfl, C1_valid_iff_no_failures rxFalse "t0" 3 ageRS [("age", Value.num 65)] C1res rfl⟩

/-- C3 (amended): only an absent (`undefined`) attribute triggers the
missing-value branch.  When the key is absent and the operator is not
`not_exists`, a non-`optional` rule is appended to `skipped` with reason
`missing_attribute` and a message naming the key, an `optional` rule records
nothing, and in both cases nothing else in the result changes (no descent
into `conditions` or `any_of`). -/
theorem C3_missing_attribute_skip (rx : String → String → Option Bool)
    (r : Rule) (attrs : Attributes) (res : ValidationResult)
    (hmiss : lookupAttr attrs r.key = none) (hop : r.operator ≠ "not_exists") :
    (r.requirement ≠ some "optional" →
      evaluateRule rx r attrs res = .ok { res with skipped := res.skipped ++
        [{ id := r.id, key := r.key, label := r.label,
           reason := some "missing_attribute",
           message := some ("Missing required attribute: " ++ r.key) }] }) ∧
    (r.requirement = some "optional" → evaluateRule rx r attrs res = .ok res) := by
  obtain ⟨i, k, l, d, o, val, vals, mn, mx, u, req, c, a⟩ := r
  simp only [Rule.key, Rule.operator, Rule.requirement, Rule.id, Rule.label] at *
  constructor
  · intro hreq
    rw [evaluateRule.eq_def]
    simp [hmiss, hop, hreq, bne]
  · intro hreq
    subst hreq
    rw [evaluateRule.eq_def]
    simp [hmiss, hop, bne]

/-- C3 counterexample to the claim as stated: a key mapped to `null` is NOT
treated as missing — the rule is evaluated and lands in `failed`, and
`skipped` stays empty (the claim demanded a `missing_attribute` skip). -/
theorem C3_counterexample :
    lookupAttr [("x", Value.null)] eqTrueReq.key = some Value.null ∧
    (evaluateRule rxFalse eqTrueReq [("x", Value.null)]
        (initResult "t0" ageRS [("x", Value.null)])).map
      (fun r => (r.skipped, r.failed.length)) = .ok ([], 1) :=
  ⟨rfl, rfl⟩

/-- C3 (amended), instantiated: a required rule whose key is wholly absent
is skipped with reason `missing_attribute`. -/
theorem C3_missing_attribute_skip_witness :
    evaluateRule rxFalse eqTrueReq [] (initResult "t0" ageRS []) =
      .ok { initResult "t0" ageRS [] with skipped :=
        [{ id := some "r3", key := "x", label := none,
           reason := some "missing_attribute",
           message := some ("Missing required attribute: " ++ "x") }] } :=
  (C3_missing_attribute_skip rxFalse eqTrueReq [] (initResult "t0" ageRS [])
    rfl (by decide)).1 (by decide)

/-- C4: a rule whose own condition fails but that has a non-empty `any_of`
with a passing alternative is appended to `passed` tagged
`satisfied_by: alternative`, and nothing else changes: no `failed`/`errors`
entry, no entries for the alternatives themselves, no descent into the
parent's `conditions`. -/
theorem C4_alternative_satisfies_parent (rx : String → String → Option Bool)
    (r : Rule) (attrs : Attributes) (res : ValidationResult)
    (hreach : ¬(lookupAttr attrs r.key = none ∧ r.operator ≠ "not_exists"))
    (hcond : evaluateCondition rx r (lookupAttr attrs r.key) = .ok false)
    (hne : r.any_of ≠ [])
    (halt : anyAltPasses rx r.any_of attrs = .ok true) :
    evaluateRule rx r attrs res = .ok { res with passed := res.passed ++
      [{ id := r.id, key := r.key, label := r.label,
         value := lookupAttr attrs r.key,
         satisfied_by := some "alternative" }] } := by
  obtain ⟨i, k, l, d, o, val, vals, mn, mx, u, req, c, a⟩ := r
  simp only [Rule.key, Rule.operator, Rule.id, Rule.label, Rule.any_of] at *
  rw [evaluateRule.eq_def]
  have hif : (lookupAttr attrs k == none && o != "not_exists") = false := by
    rcases Bool.eq_false_or_eq_true (lookupAttr attrs k == none) with hb | hb
    · have hk : lookupAttr attrs k = none := by simpa [beq_iff_eq] using hb
      have ho : o = "not_exists" := by
        by_contra hx
        exact hreach ⟨hk, hx⟩
      simp [ho, bne]
    · simp [hb]
  simp only [hif, Bool.false_eq_true, if_false]
  rw [hcond]
  simp only [Bind.bind, Except.bind]
  have hne' : a.isEmpty = false := by
    cases a with
    | nil => exact absurd rfl hne
    | cons x xs => rfl
  simp [hne', halt, Bind.bind, Except.bind]

/-- C4, instantiated: the parent rule whose `equals` condition fails on
`x = false` but whose second alternative passes on
`has_dependent_child = true` is recorded once in `passed`, tagged
`satisfied_by: alternative`, with no other change. -/
theorem C4_alternative_satisfies_parent_witness :
    evaluateRule rxFalse parentAltRule
      [("x", Value.bool false), ("has_dependent_child", Value.bool true)]
      (initResult "t0" ageRS [("x", Value.bool false), ("has_dependent_child", Value.bool true)]) =
    .ok { initResult "t0" ageRS
            [("x", Value.bool false), ("has_dependent_child", Value.bool true)] with
          passed := [⟨some "p1", "x", none, some (Value.bool false),
            none, none, none, none, some "alternative"⟩] } :=
  C4_alternative_satisfies_parent rxFalse parentAltRule
    [("x", Value.bool false), ("has_dependent_child", Value.bool true)]
    (initResult "t0" ageRS [("x", Value.bool false), ("has_dependent_child", Value.bool true)])
    (by decide) rfl (by simp [parentAltRule, Rule.any_of]) rfl

/-- C5: every numeric operator fails closed — an attribute value that does
not coerce to a number (`NaN`) never satisfies `less_than`,
`less_than_or_equal`, `greater_than`, `greater_than_or_equal` or `between`. -/
theorem C5_nan_fails_closed (rx : String → String → Option Bool)
    (rule : Rule) (v : Option Value)
    (hop : rule.operator ∈ ["less_than", "less_than_or_equal", "greater_than",
      "greater_than_or_equal", "between"])
    (hnan : toNumber v = none) :
    evaluateCondition rx rule v = .ok false := by
  obtain ⟨i, k, l, d, o, val, vals, mn, mx, u, req, c, a⟩ := rule
  simp only [Rule.operator, List.mem_cons, List.not_mem_nil, or_false] at hop
  rcases hop with h | h | h | h | h <;> subst h
  · rw [show evaluateCondition rx (Rule.mk i k l d "less_than" val vals mn mx u req c a) v =
      .ok (numLt (toNumber v) (toNumber val)) from rfl, hnan, numLt_none_left]
  · rw [show evaluateCondition rx
        (Rule.mk i k l d "less_than_or_equal" val vals mn mx u req c a) v =
      .ok (numLe (toNumber v) (toNumber val)) from rfl, hnan, numLe_none_left]
  · rw [show evaluateCondition rx (Rule.mk i k l d "greater_than" val vals mn mx u req c a) v =
      .ok (numGt (toNumber v) (toNumber val)) from rfl, hnan]
    rw [show numGt none (toNumber val) = numLt (toNumber val) none from rfl, numLt_none_right]
  · rw [show evaluateCondition rx
        (Rule.mk i k l d "greater_than_or_equal" val vals mn mx u req c a) v =
      .ok (numGe (toNumber v) (toNumber val)) from rfl, hnan]
    rw [show numGe none (toNumber val) = numLe (toNumber val) none from rfl, numLe_none_right]
  · rw [show evaluateCondition rx (Rule.mk i k l d "between" val vals mn mx u req c a) v =
      .ok (numGe (toNumber v) (toNumber mn) && numLe (toNumber v) (toNumber mx)) from rfl,
      hnan]
    rw [show numGe none (toNumber mn) = numLe (toNumber mn) none from rfl, numLe_none_right]
    rfl

/-- C5, instantiated: the string `"abc"` coerces to `NaN` and fails the
`age <= 65` rule's condition. -/
theorem C5_nan_fails_closed_witness :
    toNumber (some (Value.str "abc")) = none ∧
    evaluateCondition rxFalse ageRule (some (Value.str "abc")) = .ok false :=
  ⟨rfl, C5_nan_fails_closed rxFalse ageRule (some (Value.str "abc")) (by decide) rfl⟩

/-- The record `evaluateRule` makes for the node ITSELF (source lines
62-148): the same branch structure as `evaluateRule`, with the recursive
descent into `conditions` removed.  On the exception paths — where
`evaluateRule` returns no result — the value is immaterial and empty. -/
structure OwnRecord where
  passed : List Entry
  failed : List Entry
  skipped : List Entry
  errors : List ErrorEntry

/-- The node's own contribution to the four outcome lists. -/
def ownRecord (rx : String → String → Option Bool)
    (rule : Rule) (attrs : Attributes) : OwnRecord :=
  let value := lookupAttr attrs rule.key
  if value == none && rule.operator != "not_exists" then
    if rule.requirement != some "optional" then
      ⟨[], [], [⟨rule.id, rule.key, rule.label, none, some "missing_attribute",
        some ("Missing required attribute: " ++ rule.key), none, none, none⟩], []⟩
    else ⟨[], [], [], []⟩
  else
    match evaluateCondition rx rule value with
    | .error _ => ⟨[], [], [], []⟩
    | .ok true =>
      ⟨[⟨rule.id, rule.key, rule.label, value, none, none, none, none, none⟩],
       [], [], []⟩
    | .ok false =>
      match (if !rule.any_of.isEmpty then anyAltPasses rx rule.any_of attrs
             else pure false) with
      | .error _ => ⟨[], [], [], []⟩
      | .ok true =>
        ⟨[⟨rule.id, rule.key, rule.label, value, none, none, none, none,
          some "alternative"⟩], [], [], []⟩
      | .ok false =>
        if rule.requirement == some "disqualifying" then
          ⟨[], [⟨rule.id, rule.key, rule.label, value, none,
            some ("Disqualifying condition: " ++ strOrElse rule.label rule.key),
            describeExpectation rule, some "disqualifying", none⟩], [],
           [⟨rule.key, strOrElse rule.description
              ("Does not meet " ++ strOrElse rule.label rule.key ++ " requirement")⟩]⟩
        else if rule.requirement != some "optional" then
          ⟨[], [⟨rule.id, rule.key, rule.label, value, none,
            some ("Requirement not met: " ++ strOrElse rule.label rule.key),
            describeExpectation rule, none, none⟩], [],
           [⟨rule.key, strOrElse rule.description
              ("Does not meet " ++ strOrElse rule.label rule.key ++ " requirement")⟩]⟩
        else ⟨[], [], [], []⟩

/-- The walk descends into `conditions` exactly when the node reached and
passed its own condition (source lines 84-97). -/
def ownConditionPassed (rx : String → String → Option Bool)
    (rule : Rule) (attrs : Attributes) : Prop :=
  ¬(lookupAttr attrs rule.key = none ∧ rule.operator ≠ "not_exists") ∧
  evaluateCondition rx rule (lookupAttr attrs rule.key) = .ok true

/-- C2 (amended): the entries `evaluateRule` records for a node itself are
exactly `ownRecord`: at most one entry overall, hence in at most one of
`passed`/`failed`/`skipped` — never two — and no entry exactly when the
node `vanishes` (requirement `optional` and the attribute missing, or the
condition failed with no satisfying alternative).  The walk descends into
the `conditions` children, whose entries follow the node's own, exactly
when the node's own condition passed; in every other case the result is the
own record appended to the incoming result and nothing else. -/
theorem C2_single_outcome_per_rule (rx : String → String → Option Bool)
    (r : Rule) (attrs : Attributes) (res res' : ValidationResult)
    (h : evaluateRule rx r attrs res = .ok res') :
    ((ownRecord rx r attrs).passed.length + (ownRecord rx r attrs).failed.length +
      (ownRecord rx r attrs).skipped.length ≤ 1) ∧
    ((ownRecord rx r attrs).passed = [] ∧ (ownRecord rx r attrs).failed = [] ∧
      (ownRecord rx r attrs).skipped = [] ↔ vanishes rx r attrs) ∧
    (ownConditionPassed rx r attrs →
      evaluateRules rx r.conditions attrs
        { res with passed := res.passed ++ (ownRecord rx r attrs).passed } = .ok res') ∧
    (¬ownConditionPassed rx r attrs →
      res' = { res with
        passed := res.passed ++ (ownRecord rx r attrs).passed,
        failed := res.failed ++ (ownRecord rx r attrs).failed,
        skipped := res.skipped ++ (ownRecord rx r attrs).skipped,
        errors := res.errors ++ (ownRecord rx r attrs).errors }) := by
  obtain ⟨i, k, l, d, o, val, vals, mn, mx, u, req, c, a⟩ := r
  simp only [vanishes, ownRecord, ownConditionPassed, Rule.requirement, Rule.key,
    Rule.operator, Rule.any_of, Rule.id, Rule.label, Rule.description, Rule.conditions]
  rw [evaluateRule.eq_def] at h
  dsimp only at h
  split at h
  all_goals rename_i hifc
  · -- missing-value branch
    have hm := hifc
    rw [Bool.and_eq_true, beq_iff_eq, bne_iff_ne] at hm
    rw [if_pos hifc]
    split at h
    all_goals rename_i hreq
    · rw [bne_iff_ne] at hreq
      obtain rfl := Except.ok.inj h
      rw [if_pos (by rw [bne_iff_ne]; exact hreq)]
      refine ⟨by simp, ?_, ?_, ?_⟩
      · constructor
        · rintro ⟨-, -, habs⟩
          exact absurd habs (by simp)
        · rintro ⟨hopt, -⟩
          exact (hreq hopt).elim
      · intro hcp
        exact (hcp.1 ⟨hm.1, hm.2⟩).elim
      · intro _
        simp
    · rw [if_neg hreq]
      have hopt : req = some "optional" := by
        simpa [bne_iff_ne, not_not] using hreq
      obtain rfl := Except.ok.inj h
      refine ⟨by simp, ?_, ?_, ?_⟩
      · exact ⟨fun _ => ⟨hopt, Or.inl hm⟩, fun _ => ⟨rfl, rfl, rfl⟩⟩
      · intro hcp
        exact (hcp.1 ⟨hm.1, hm.2⟩).elim
      · intro _
        simp
  · -- the condition is evaluated
    have hnm : ¬(lookupAttr attrs k = none ∧ o ≠ "not_exists") := by
      rintro ⟨h1, h2⟩
      exact hifc (by simp [h1, bne, h2])
    rw [if_neg hifc]
    cases hcon : evaluateCondition rx (Rule.mk i k l d o val vals mn mx u req c a)
        (lookupAttr attrs k) with
    | error e => rw [hcon] at h; exact absurd h (by simp [Bind.bind, Except.bind])
    | ok b =>
      rw [hcon] at h
      simp only [Bind.bind, Except.bind] at h
      cases b with
      | true =>
        dsimp only
        rw [if_pos rfl] at h
        refine ⟨by simp, ?_, ?_, ?_⟩
        · constructor
          · rintro ⟨habs, -, -⟩
            exact absurd habs (by simp)
          · rintro ⟨-, hcase | hcase⟩
            · exact (hnm hcase).elim
            · exact absurd (Except.ok.inj hcase.1) (by decide)
        · intro _
          exact h
        · intro hncp
          exact (hncp ⟨hnm, rfl⟩).elim
      | false =>
        dsimp only
        rw [if_neg Bool.false_ne_true] at h
        split at h
        all_goals rename_i hempty
        · have hne : a ≠ [] := by
            intro hnil; subst hnil; simp at hempty
          rw [if_pos hempty]
          cases ha : anyAltPasses rx a attrs with
          | error e =>
            rw [ha] at h; exact absurd h (by simp [Bind.bind, Except.bind])
          | ok ab =>
            rw [ha] at h
            dsimp only at h
            cases ab with
            | true =>
              dsimp only
              rw [if_pos rfl] at h
              obtain rfl := Except.ok.inj h
              refine ⟨by simp, ?_, ?_, ?_⟩
              · constructor
                · rintro ⟨habs, -, -⟩
                  exact absurd habs (by simp)
                · rintro ⟨-, hcase | hcase⟩
                  · exact (hnm hcase).elim
                  · exact (hcase.2 ⟨hne, rfl⟩).elim
              · rintro ⟨-, habs⟩
                exact absurd (Except.ok.inj habs) (by decide)
              · intro _
                simp
            | false =>
              dsimp only
              rw [if_neg Bool.false_ne_true] at h
              split at h
              all_goals rename_i hreq
              · rw [if_pos hreq]
                rw [beq_iff_eq] at hreq
                obtain rfl := Except.ok.inj h
                refine ⟨by simp, ?_, ?_, ?_⟩
                · constructor
                  · rintro ⟨-, habs, -⟩
                    exact absurd habs (by simp)
                  · rintro ⟨hopt, -⟩
                    rw [hreq] at hopt
                    exact absurd (Option.some.inj hopt) (by decide)
                · rintro ⟨-, habs⟩
                  exact absurd (Except.ok.inj habs) (by decide)
                · intro _
                  simp
              · rw [if_neg hreq]
                split at h
                all_goals rename_i hreq2
                · rw [if_pos hreq2]
                  rw [bne_iff_ne] at hreq2
                  obtain rfl := Except.ok.inj h
                  refine ⟨by simp, ?_, ?_, ?_⟩
                  · constructor
                    · rintro ⟨-, habs, -⟩
                      exact absurd habs (by simp)
                    · rintro ⟨hopt, -⟩
                      exact (hreq2 hopt).elim
                  · rintro ⟨-, habs⟩
                    exact absurd (Except.ok.inj habs) (by decide)
                  · intro _
                    simp
                · rw [if_neg hreq2]
                  have hopt : req = some "optional" := by
                    simpa [bne_iff_ne, not_not] using hreq2
                  obtain rfl := Except.ok.inj h
                  refine ⟨by simp, ?_, ?_, ?_⟩
                  · refine ⟨fun _ => ⟨hopt, Or.inr ⟨rfl, ?_⟩⟩, fun _ => ⟨rfl, rfl, rfl⟩⟩
                    rintro ⟨-, habs⟩
                    exact absurd (Except.ok.inj habs) (by decide)
                  · rintro ⟨-, habs⟩
                    exact absurd (Except.ok.inj habs) (by decide)
                  · intro _
                    simp
        · have hnil : a = [] := by
            cases a with
            | nil => rfl
            | cons x xs => simp at hempty
          subst hnil
          rw [if_neg hempty]
          simp only [pure, Except.pure, Bind.bind, Except.bind] at h
          dsimp only [pure, Except.pure]
          rw [if_neg Bool.false_ne_true] at h
          split at h
          all_goals rename_i hreq
          · rw [if_pos hreq]
            rw [beq_iff_eq] at hreq
            obtain rfl := Except.ok.inj h
            refine ⟨by simp, ?_, ?_, ?_⟩
            · constructor
              · rintro ⟨-, habs, -⟩
                exact absurd habs (by simp)
              · rintro ⟨hopt, -⟩
                rw [hreq] at hopt
                exact absurd (Option.some.inj hopt) (by decide)
            · rintro ⟨-, habs⟩
              exact absurd (Except.ok.inj habs) (by decide)
            · intro _
              simp
          · rw [if_neg hreq]
            split at h
            all_goals rename_i hreq2
            · rw [if_pos hreq2]
              rw [bne_iff_ne] at hreq2
              obtain rfl := Except.ok.inj h
              refine ⟨by simp, ?_, ?_, ?_⟩
              · constructor
                · rintro ⟨-, habs, -⟩
                  exact absurd habs (by simp)
                · rintro ⟨hopt, -⟩
                  exact (hreq2 hopt).elim
              · rintro ⟨-, habs⟩
                exact absurd (Except.ok.inj habs) (by decide)
              · intro _
                simp
            · rw [if_neg hreq2]
              have hopt : req = some "optional" := by
                simpa [bne_iff_ne, not_not] using hreq2
              obtain rfl := Except.ok.inj h
              refine ⟨by simp, ?_, ?_, ?_⟩
              · refine ⟨fun _ => ⟨hopt, Or.inr ⟨rfl, ?_⟩⟩, fun _ => ⟨rfl, rfl, rfl⟩⟩
                rintro ⟨hx, -⟩
                exact hx rfl
              · rintro ⟨-, habs⟩
                exact absurd (Except.ok.inj habs) (by decide)
              · intro _
                simp

/-- An `optional` rule whose condition fails but whose single alternative
passes. -/
def optAltRule : Rule :=
  .mk (some "o1") "x" none none "equals" (some (.bool true))
    none none none none (some "optional") [] [altDependent]

/-- C2 counterexample to the claim's "in none of the lists iff optional and
its condition failed", violated in both directions: an `optional` rule with
a missing key records nothing although its `not_equals` condition would
evaluate to `true` (it did not fail); and an `optional` rule whose condition
does fail but whose alternative passes is recorded in `passed`, i.e. not in
no list. -/
theorem C2_counterexample :
    (evaluateRule rxFalse notEqOptional [] (initResult "t0" ageRS []) =
      .ok (initResult "t0" ageRS []) ∧
     notEqOptional.requirement = some "optional" ∧
     evaluateCondition rxFalse notEqOptional (lookupAttr [] notEqOptional.key) = .ok true) ∧
    (optAltRule.requirement = some "optional" ∧
     evaluateCondition rxFalse optAltRule
       (lookupAttr [("x", Value.bool false), ("has_dependent_child", Value.bool true)]
         optAltRule.key) = .ok false ∧
     (evaluateRule rxFalse optAltRule
        [("x", Value.bool false), ("has_dependent_child", Value.bool true)]
        (initResult "t0" ageRS
          [("x", Value.bool false), ("has_dependent_child", Value.bool true)])).map
       (fun r => r.passed.map Entry.id) = .ok [some "o1"]) :=
  ⟨⟨rfl, rfl, rfl⟩, ⟨rfl, rfl, rfl⟩⟩

/-- The result of evaluating the `age <= 65` rule against `age = 66`. -/
def C2res : ValidationResult :=
  { initResult "t0" ageRS [("age", Value.num 66)] with
    failed := [⟨some "r1", "age", none, some (Value.num 66), none,
      some "Requirement not met: age", some (Value.str "<= 65"), none, none⟩],
    errors := [⟨"age", "Does not meet age requirement"⟩] }

/-- C2 (amended), instantiated at the failing `age <= 65` rule: the node's
own record is a single entry, in `failed` alone, the vanishing criterion
evaluates concretely, and — the condition not having passed — the result is
exactly the own record appended to the incoming result. -/
theorem C2_single_outcome_per_rule_witness :
    ((ownRecord rxFalse ageRule [("age", Value.num 66)]).passed.length +
      (ownRecord rxFalse ageRule [("age", Value.num 66)]).failed.length +
      (ownRecord rxFalse ageRule [("age", Value.num 66)]).skipped.length ≤ 1) ∧
    ((ownRecord rxFalse ageRule [("age", Value.num 66)]).passed = [] ∧
      (ownRecord rxFalse ageRule [("age", Value.num 66)]).failed = [] ∧
      (ownRecord rxFalse ageRule [("age", Value.num 66)]).skipped = [] ↔
      vanishes rxFalse ageRule [("age", Value.num 66)]) ∧
    C2res =
      { initResult "t0" ageRS [("age", Value.num 66)] with
        passed := (initResult "t0" ageRS [("age", Value.num 66)]).passed ++
          (ownRecord rxFalse ageRule [("age", Value.num 66)]).passed,
        failed := (initResult "t0" ageRS [("age", Value.num 66)]).failed ++
          (ownRecord rxFalse ageRule [("age", Value.num 66)]).failed,
        skipped := (initResult "t0" ageRS [("age", Value.num 66)]).skipped ++
          (ownRecord rxFalse ageRule [("age", Value.num 66)]).skipped,
        errors := (initResult "t0" ageRS [("age", Value.num 66)]).errors ++
          (ownRecord rxFalse ageRule [("age", Value.num 66)]).errors } := by
  have h := C2_single_outcome_per_rule rxFalse ageRule [("age", Value.num 66)]
    (initResult "t0" ageRS [("age", Value.num 66)]) C2res rfl
  refine ⟨h.1, h.2.1, h.2.2.2 ?_⟩
  rintro ⟨-, hpass⟩
  exact absurd (Except.ok.inj ((rfl :
    evaluateCondition rxFalse ageRule
      (lookupAttr [("age", Value.num 66)] ageRule.key) = Except.ok false).symm.trans hpass))
    (by decide)

/-- C6: the code contradicts the claim — a `matches` rule whose pattern
fails to compile (JS `new RegExp("[")` throws `SyntaxError`) aborts the
whole run: `validate` propagates the exception and returns no result, and
the subsequent `age` rule is never evaluated, although the spec requires
the node merely to fail with evaluation continuing. -/
theorem C6_invalid_regex_aborts_run (rx : String → String → Option Bool)
    (hrx : rx "[" "x" = none) :
    validate rx "t0" 0 regexRS [("name", Value.str "x"), ("age", Value.num 30)] =
      .error () := by
  apply validate_error
  show evaluateRules rx (matchesBad :: [ageRule])
    [("name", Value.str "x"), ("age", Value.num 30)]
    (initResult "t0" regexRS [("name", Value.str "x"), ("age", Value.num 30)]) = .error ()
  apply evalRules_error_head
  apply evalRule_error_of_cond
  · decide
  · show (match rx "[" "x" with
      | some b => Except.ok b
      | none => Except.error ()) = Except.error ()
    rw [hrx]

/-- C6, instantiated with a host regex facility on which `[` fails to
compile: the run aborts with no result. -/
theorem C6_invalid_regex_aborts_run_witness :
    validate rxBracket "t0" 0 regexRS [("name", Value.str "x"), ("age", Value.num 30)] =
      .error () :=
  C6_invalid_regex_aborts_run rxBracket rfl

/-- C7: a rule whose operator is none of the twelve recognised ones has its
condition evaluate to `false` without throwing, and — provided its own
alternatives do not throw — the loop moves on to the remaining rules of the
ruleset. -/
theorem C7_unknown_operator_continues (rx : String → String → Option Bool)
    (rule : Rule) (attrs : Attributes) (b : Bool)
    (hop : rule.operator ∉ knownOperators)
    (halt : anyAltPasses rx rule.any_of attrs = .ok b) :
    (∀ v, evaluateCondition rx rule v = .ok false) ∧
    (∀ rest res, ∃ res', evaluateRule rx rule attrs res = .ok res' ∧
      evaluateRules rx (rule :: rest) attrs res = evaluateRules rx rest attrs res') := by
  obtain ⟨i, k, l, d, o, val, vals, mn, mx, u, req, c, a⟩ := rule
  simp only [Rule.operator] at hop
  simp only [Rule.any_of] at halt
  have hfalse : ∀ v,
      evaluateCondition rx (Rule.mk i k l d o val vals mn mx u req c a) v = .ok false := by
    intro v
    rw [evaluateCondition.eq_def]
    split <;> first
      | rfl
      | (exfalso; apply hop; simp only [Rule.operator] at *; subst_vars; decide)
  refine ⟨hfalse, ?_⟩
  intro rest res
  have hex : ∃ res',
      evaluateRule rx (Rule.mk i k l d o val vals mn mx u req c a) attrs res = .ok res' := by
    rw [evaluateRule.eq_def]
    dsimp only
    split
    · split
      · exact ⟨_, rfl⟩
      · exact ⟨_, rfl⟩
    · rw [hfalse (lookupAttr attrs k)]
      simp only [Bind.bind, Except.bind]
      rw [if_neg Bool.false_ne_true]
      split
      · rw [halt]
        dsimp only
        cases b with
        | true =>
          rw [if_pos rfl]
          exact ⟨_, rfl⟩
        | false =>
          rw [if_neg Bool.false_ne_true]
          split
          · exact ⟨_, rfl⟩
          · split
            · exact ⟨_, rfl⟩
            · exact ⟨_, rfl⟩
      · simp only [pure, Except.pure, Bind.bind, Except.bind]
        rw [if_neg Bool.false_ne_true]
        split
        · exact ⟨_, rfl⟩
        · split
          · exact ⟨_, rfl⟩
          · exact ⟨_, rfl⟩
  obtain ⟨res', hres⟩ := hex
  exact ⟨res', hres, evaluateRules_cons rx _ rest attrs res res' hres⟩

/-- The accumulating result the C7 witness starts from. -/
def C7res : ValidationResult := initResult "t0" ageRS [("x", Value.bool true)]

/-- The result after the unknown-operator rule fails and is recorded. -/
def C7res2 : ValidationResult :=
  { C7res with
    failed := [⟨some "u1", "x", none, some (Value.bool true), none,
      some "Requirement not met: x", none, none, none⟩],
    errors := [⟨"x", "Does not meet x requirement"⟩] }

/-- C7, instantiated at operator `frobnicate`: the condition is `false`,
nothing is thrown, and the loop proceeds with the remaining `age` rule. -/
theorem C7_unknown_operator_continues_witness :
    evaluateCondition rxFalse frobRule (some (Value.bool true)) = .ok false ∧
    evaluateRules rxFalse [frobRule, ageRule] [("x", Value.bool true)] C7res =
      evaluateRules rxFalse [ageRule] [("x", Value.bool true)] C7res2 := by
  have h := C7_unknown_operator_continues rxFalse frobRule [("x", Value.bool true)]
    false (by decide) rfl
  refine ⟨h.1 (some (Value.bool true)), ?_⟩
  obtain ⟨res', h1, h2⟩ := h.2 [ageRule] C7res
  obtain rfl := Except.ok.inj
    ((rfl : evaluateRule rxFalse frobRule [("x", Value.bool true)] C7res =
      .ok C7res2).symm.trans h1)
  exact h2

/-- C8: numeric comparisons are inclusive exactly as named — `age <= 65`
passes at `age = 65`, fails at `age = 66` with the failed entry's
`expected` equal to the string `<= 65`, and `between 18 and 49` passes at
both bounds. -/
theorem C8_inclusive_boundaries :
    (evaluateRule rxFalse ageRule [("age", Value.num 65)]
        (initResult "t0" ageRS [("age", Value.num 65)])).map
      (fun r => (r.passed.map Entry.id, r.failed, r.skipped)) =
      .ok ([some "r1"], [], []) ∧
    (evaluateRule rxFalse ageRule [("age", Value.num 66)]
        (initResult "t0" ageRS [("age", Value.num 66)])).map
      (fun r => (r.passed, r.failed.map Entry.expected, r.skipped)) =
      .ok ([], [some (Value.str "<= 65")], []) ∧
    evaluateCondition rxFalse between1849 (some (Value.num 18)) = .ok true ∧
    evaluateCondition rxFalse between1849 (some (Value.num 49)) = .ok true :=
  ⟨rfl, rfl, rfl, rfl⟩

/-- C9: `createEvent` is exactly the stated projection of the result, and
depends on the supplied attributes only through their key list — two
results equal on every projected field and with the same attribute keys
(however different the attribute values) produce identical events. -/
theorem C9_createEvent_projection (r₁ r₂ : ValidationResult)
    (ht : r₁.timestamp = r₂.timestamp) (hs : r₁.service_id = r₂.service_id)
    (hv : r₁.valid = r₂.valid) (hp : r₁.passed.length = r₂.passed.length)
    (hf : r₁.failed.length = r₂.failed.length)
    (hk : r₁.skipped.length = r₂.skipped.length)
    (hd : r₁.duration_ms = r₂.duration_ms) (he : r₁.errors = r₂.errors)
    (hc : r₁.changes.map Prod.fst = r₂.changes.map Prod.fst) :
    createEvent r₁ =
      { type := "validation", timestamp := r₁.timestamp,
        service_id := r₁.service_id, valid := r₁.valid,
        passed_count := r₁.passed.length, failed_count := r₁.failed.length,
        skipped_count := r₁.skipped.length, duration_ms := r₁.duration_ms,
        errors := r₁.errors.map (fun e => ⟨e.field, e.message⟩),
        attributes_provided := r₁.changes.map Prod.fst } ∧
    createEvent r₁ = createEvent r₂ := by
  constructor
  · rfl
  · simp only [createEvent, AuditEvent.mk.injEq]
    exact ⟨trivial, ht, hs, hv, hp, hf, hk, hd, by rw [he], hc⟩

/-- A concrete validation result with a raw attribute value. -/
def resA : ValidationResult :=
  { valid := true, service_id := some "svc", timestamp := "t0",
    changes := [("age", Value.num 65)], errors := [],
    passed := [⟨some "r1", "age", none, some (Value.num 65), none, none, none, none, none⟩],
    failed := [], skipped := [], data := ageRS, duration_ms := 3 }

/-- The same result with the attribute value (and recorded entry value)
changed; only the key list coincides. -/
def resB : ValidationResult :=
  { resA with
    changes := [("age", Value.str "redacted")],
    passed := [⟨some "r1", "age", none, some (Value.str "redacted"),
      none, none, none, none, none⟩] }

/-- C9, instantiated: two results that differ in raw attribute values but
agree on keys produce the same audit event. -/
theorem C9_createEvent_projection_witness :
    createEvent resA = createEvent resB ∧ resA.changes ≠ resB.changes :=
  ⟨(C9_createEvent_projection resA resB rfl rfl rfl rfl rfl rfl rfl rfl rfl).2,
   by decide⟩

/-- C10: with an absent `values` operand, `not_in` passes vacuously (JS
`!undefined` is `true`) while `in` always fails — membership fails closed,
non-membership passes open. -/
theorem C10_in_notIn_absent_values (rx : String → String → Option Bool)
    (rule : Rule) (v : Option Value)
    (hvals : rule.values = none) :
    (rule.operator = "not_in" → evaluateCondition rx rule v = .ok true) ∧
    (rule.operator = "in" → evaluateCondition rx rule v = .ok false) := by
  obtain ⟨i, k, l, d, o, val, vals, mn, mx, u, req, c, a⟩ := rule
  simp only [Rule.values, Rule.operator] at hvals ⊢
  subst hvals
  constructor <;> intro h <;> subst h <;> rfl

def noValuesNotIn : Rule :=
  .mk (some "n1") "k" none none "not_in" none none none none none none [] []

def noValuesIn : Rule :=
  .mk (some "n2") "k" none none "in" none none none none none none [] []

/-- C10, instantiated: the same attribute value passes `not_in` and fails
`in` when both rules lack a `values` list. -/
theorem C10_in_notIn_absent_values_witness :
    evaluateCondition rxFalse noValuesNotIn (some (Value.str "a")) = .ok true ∧
    evaluateCondition rxFalse noValuesIn (some (Value.str "a")) = .ok false :=
  ⟨(C10_in_notIn_absent_values rxFalse noValuesNotIn (some (Value.str "a")) rfl).1 rfl,
   (C10_in_notIn_absent_values rxFalse noValuesIn (some (Value.str "a")) rfl).2 rfl⟩
